import Mathlib

/-!
Verification of the Randomness & Bias Analysis Engine.

This file shallowly embeds the statistical analysis functions of the
repository (the `statistical-analysis` module and the
`analysis/position-bias.ts` and `analysis/word-frequency.ts` modules of the
`random-word` package) and proves or refutes the frozen claims about them.

Embedding conventions:
* JavaScript numbers are idealised as exact arithmetic: `ℕ` for counts,
  `ℚ` for the purely rational computations (position bias, edge bias,
  word–position correlation, chi-square), and `ℝ` where the source takes
  square roots or logarithms (runs test, entropy, standard deviation).
* The two places where the source can divide zero by zero on inputs that
  satisfy the data-model invariant (the normalisation of the entropy and the
  coefficient of variation) are modelled with `JsNum`, which makes the IEEE
  special values explicit.  Elsewhere division by zero is unreachable on the
  domains used by the theorems (guards in the source rule it out), and plain
  field division is used.
* A JavaScript object `Record<k, number>` is modelled as an association list
  in insertion order; object update `o[k] = v` updates the first (unique)
  binding in place or appends a fresh binding.
* JavaScript booleans computed from decidable (rational) comparisons are
  `Bool`; booleans computed from real comparisons are `Prop` fields.
-/

/-- IEEE-style value of a JavaScript number: either a finite real or one of
the special values `NaN`, `+∞`, `-∞` that division by zero can produce. -/
inductive JsNum where
  | nan : JsNum
  | posInf : JsNum
  | negInf : JsNum
  | val : ℝ → JsNum

/-- JavaScript division producing special values on a zero denominator:
`0/0 = NaN`, `x/0 = ±∞` for `x ≠ 0`, ordinary real division otherwise. -/
noncomputable def jsDiv (a b : ℝ) : JsNum :=
  if b = 0 then
    if a = 0 then JsNum.nan else if 0 < a then JsNum.posInf else JsNum.negInf
  else JsNum.val (a / b)

/-- JavaScript comparison `x > y` of a possibly-special number against a
finite one; comparisons against `NaN` are false. -/
def JsNum.gtReal : JsNum → ℝ → Prop
  | JsNum.nan, _ => False
  | JsNum.posInf, _ => True
  | JsNum.negInf, _ => False
  | JsNum.val x, y => y < x

/-- `SelectionRun` of `types/index.ts`: one observed trial. -/
structure SelectionRun where
  word : String
  position : ℕ
  originalOrder : List String
deriving DecidableEq, Repr

/-- `EvaluationResult` of `types/index.ts`: aggregated results of runs. -/
structure EvaluationResult where
  selectedWords : List (String × ℕ)
  positionBias : List (ℕ × ℕ)
  totalRuns : ℕ
  rawSelections : List SelectionRun
deriving DecidableEq, Repr

/-- The attribute argument `'word' | 'position'` of the runs test. -/
inductive Attr where
  | word : Attr
  | position : Attr
deriving DecidableEq, Repr

/-- JavaScript object update `o[k] = (o[k] || 0) + 1`: bump the first binding
of the key in place, or append a fresh binding with count 1. -/
def bump [DecidableEq κ] : List (κ × ℕ) → κ → List (κ × ℕ)
  | [], k => [(k, 1)]
  | p :: t, k => if p.1 = k then (p.1, p.2 + 1) :: t else p :: bump t k

/-- `calculateWordFrequency` of `analysis/word-frequency.ts`. -/
def calculateWordFrequency (selections : List SelectionRun) : List (String × ℕ) :=
  selections.foldl (fun wordCounts s => bump wordCounts s.word) []

/-- `calculatePositionBias` of `analysis/position-bias.ts` (the raw position
counts). -/
def calculatePositionBias (selections : List SelectionRun) : List (ℕ × ℕ) :=
  selections.foldl (fun positionCounts s => bump positionCounts s.position) []

/-- `Array.from(new Set(sequence))`: the distinct values of a list in first
occurrence order. -/
def jsUnique [DecidableEq α] : List α → List α
  | [] => []
  | a :: l => a :: (jsUnique l).filter (fun b => b != a)

/-- The sequence of tested attribute values,
`selections.map(s => attribute === 'word' ? s.word : s.position)`.
Word and position values live in a sum type, mirroring the untyped
JavaScript values (a string never equals a number). -/
def seqOf (selections : List SelectionRun) (attr : Attr) : List (String ⊕ ℕ) :=
  selections.map (fun s =>
    match attr with
    | Attr.word => Sum.inl s.word
    | Attr.position => Sum.inr s.position)

/-- The runs counter of the runs test: `runs = 1` plus the number of adjacent
positions where the binary sequence changes value. -/
def countRuns : List ℕ → ℕ
  | a :: b :: t => (if a ≠ b then 1 else 0) + countRuns (b :: t)
  | _ => 1

/-- Result record of `calculateEntropy`.  The source returns a bare pair with
no "insufficient data" marker; the normalisation can be an IEEE special
value. -/
structure EntropyResult where
  entropy : ℝ
  normalizedEntropy : JsNum

/-- `calculateEntropy` of the statistical-analysis module.  Shannon entropy
of a frequency distribution, and the normalisation `entropy / log2(k)`.
The accumulation loop is idealised over `ℝ`; on any input satisfying the
distribution invariant (`totalCount = 0` forces all counts to be `0`, and
zero counts are skipped by the loop) no intermediate special value arises,
so only the final division is modelled with `jsDiv`. -/
noncomputable def calculateEntropy [DecidableEq κ] (distribution : List (κ × ℕ))
    (totalCount : ℕ) : EntropyResult :=
  let categories := distribution.map Prod.fst
  let entropy : ℝ := categories.foldl (fun acc category =>
    let count := (distribution.lookup category).getD 0
    if count = 0 then acc
    else acc - ((count : ℝ) / (totalCount : ℝ)) *
      Real.logb 2 ((count : ℝ) / (totalCount : ℝ))) 0
  let maxEntropy : ℝ := Real.logb 2 (categories.length : ℝ)
  { entropy := entropy, normalizedEntropy := jsDiv entropy maxEntropy }

/-- Result record of `calculateStandardDeviation`; again the source has no
"insufficient data" marker and the coefficient of variation can be an IEEE
special value. -/
structure DispersionResult where
  mean : ℝ
  stdDev : ℝ
  coefficientOfVariation : JsNum

/-- `calculateStandardDeviation` of the statistical-analysis module.
Population standard deviation of the counts around `mean = total / k`,
and `coefficientOfVariation = stdDev / mean` (modelled with `jsDiv`,
since `mean` is `0` for an all-zero distribution). -/
noncomputable def calculateStandardDeviation [DecidableEq κ]
    (distribution : List (κ × ℕ)) (totalCount : ℕ) : DispersionResult :=
  let values := distribution.map Prod.snd
  let n := values.length
  let mean : ℝ := (totalCount : ℝ) / (n : ℝ)
  let sumSquaredDiff : ℝ :=
    values.foldl (fun acc value => acc + ((value : ℝ) - mean) ^ 2) 0
  let stdDev : ℝ := Real.sqrt (sumSquaredDiff / (n : ℝ))
  { mean := mean, stdDev := stdDev, coefficientOfVariation := jsDiv stdDev mean }

/-- Result record of `runsTest`.  `isRandom` is a real comparison, hence a
`Prop` field. -/
structure RunsTestResult where
  numberOfRuns : ℕ
  expectedRuns : ℝ
  zScore : ℝ
  isRandom : Prop
  interpretation : String

/-- `referenceValue = uniqueValues[0]` of the runs test: the first distinct
value of the tested sequence. -/
def referenceValue (selections : List SelectionRun) (attr : Attr) : String ⊕ ℕ :=
  (jsUnique (seqOf selections attr)).headI

/-- The binarised sequence of the runs test: `1` where the value equals the
reference value, `0` elsewhere. -/
def binarySequence (selections : List SelectionRun) (attr : Attr) : List ℕ :=
  (seqOf selections attr).map
    (fun value => if value = referenceValue selections attr then (1 : ℕ) else 0)

/-- `n1` of the runs test: occurrences of the reference value. -/
def runsN1 (selections : List SelectionRun) (attr : Attr) : ℕ :=
  ((binarySequence selections attr).filter (fun v => v == 1)).length

/-- `n2` of the runs test: occurrences of the other values. -/
def runsN2 (selections : List SelectionRun) (attr : Attr) : ℕ :=
  ((binarySequence selections attr).filter (fun v => v == 0)).length

/-- The observed number of maximal contiguous runs of the binary sequence. -/
def observedRuns (selections : List SelectionRun) (attr : Attr) : ℕ :=
  countRuns (binarySequence selections attr)

/-- `runsTest` of the statistical-analysis module: Wald–Wolfowitz-style runs
test of the sequence of values of the chosen attribute.  The local
constants of the source (`referenceValue`, `binarySequence`, `n1`, `n2`,
`runs`) are the top-level definitions above. -/
noncomputable def runsTest (selections : List SelectionRun) (attr : Attr) :
    RunsTestResult :=
  if selections.length < 10 then
    { numberOfRuns := 0, expectedRuns := 0, zScore := 0, isRandom := False,
      interpretation := "Insufficient data for runs test (need at least 10 observations)" }
  else
    let uniqueValues := jsUnique (seqOf selections attr)
    if uniqueValues.length < 2 then
      { numberOfRuns := 1, expectedRuns := 1, zScore := 0, isRandom := False,
        interpretation := "All values are identical, no randomness to test" }
    else
      let n1 := runsN1 selections attr
      let n2 := runsN2 selections attr
      let runs := observedRuns selections attr
      let expectedRuns : ℝ := 1 + (2 * (n1 : ℝ) * (n2 : ℝ)) / ((n1 : ℝ) + (n2 : ℝ))
      let stdDev : ℝ := Real.sqrt
        ((2 * (n1 : ℝ) * (n2 : ℝ) * (2 * (n1 : ℝ) * (n2 : ℝ) - (n1 : ℝ) - (n2 : ℝ))) /
          (((n1 : ℝ) + (n2 : ℝ)) ^ 2 * ((n1 : ℝ) + (n2 : ℝ) - 1)))
      let zScore : ℝ := ((runs : ℝ) - expectedRuns) / stdDev
      let zThreshold : ℝ := if selections.length ≤ 20 then 2.5 else 1.96
      { numberOfRuns := runs, expectedRuns := expectedRuns, zScore := zScore,
        isRandom := |zScore| < zThreshold,
        interpretation :=
          if |zScore| < 1.96 then
            "Sequence appears random (no significant clustering or alternating patterns)"
          else if zScore < -1.96 then
            "Sequence shows clustering (too few runs)"
          else
            "Sequence shows excessive alternating (too many runs)" }

/-- Result record of `calculateChiSquare`. -/
structure ChiSquareResult where
  chiSquare : ℚ
  degreesOfFreedom : ℤ
  interpretation : String
deriving DecidableEq, Repr

/-- `calculateChiSquare` of the statistical-analysis module.  Chi-square
statistic against an optional expected-probability map (default uniform);
`expectedProbs[category] || 1 / categories.length` treats both a missing key
and a zero probability as falsy, which the `if p = 0` branch mirrors
(`lookup` returning `none` is collapsed to `0` by `getD`). -/
def calculateChiSquare [DecidableEq κ] (observed : List (κ × ℕ))
    (totalObservations : ℕ) (expectedProbability : Option (List (κ × ℚ))) :
    ChiSquareResult :=
  let categories := observed.map Prod.fst
  let expectedProbs : List (κ × ℚ) :=
    match expectedProbability with
    | some m => m
    | none => categories.map (fun cat => (cat, 1 / (categories.length : ℚ)))
  let chiSquare : ℚ := categories.foldl (fun acc category =>
    let observedCount : ℚ := (((observed.lookup category).getD 0 : ℕ) : ℚ)
    let p : ℚ := (expectedProbs.lookup category).getD 0
    let expectedCount : ℚ :=
      (totalObservations : ℚ) * (if p = 0 then 1 / (categories.length : ℚ) else p)
    acc + (observedCount - expectedCount) ^ 2 / expectedCount) 0
  let degreesOfFreedom : ℤ := (categories.length : ℤ) - 1
  { chiSquare := chiSquare, degreesOfFreedom := degreesOfFreedom,
    interpretation :=
      if chiSquare < (degreesOfFreedom : ℚ) then
        "Distribution appears random (chi-square < df)"
      else if chiSquare < 2 * (degreesOfFreedom : ℚ) then
        "Distribution shows mild deviation from randomness"
      else if chiSquare < 3 * (degreesOfFreedom : ℚ) then
        "Distribution shows moderate deviation from randomness"
      else
        "Distribution shows strong deviation from randomness" }

/-- State of the position-deviation loop of `detectPositionBias`. -/
structure BiasLoopState where
  deviation : List (ℕ × ℚ)
  totalOfDeviations : ℚ
  maxDeviation : ℚ
  maxDeviationPosition : ℕ
deriving DecidableEq, Repr

/-- One iteration of the position loop of `detectPositionBias`: record the
percentage deviation of position `i` from the expected frequency,
accumulate its magnitude, and keep the deviation of largest magnitude. -/
def biasStep (expectedFrequency : ℚ) (positionFrequency : List (ℕ × ℕ))
    (st : BiasLoopState) (i : ℕ) : BiasLoopState :=
  let observed : ℕ := (positionFrequency.lookup i).getD 0
  let d : ℚ := ((observed : ℚ) - expectedFrequency) / expectedFrequency
  { deviation := st.deviation ++ [(i, d)],
    totalOfDeviations := st.totalOfDeviations + |d|,
    maxDeviation := if |d| > |st.maxDeviation| then d else st.maxDeviation,
    maxDeviationPosition := if |d| > |st.maxDeviation| then i else st.maxDeviationPosition }

/-- Zero-filling of the position frequency map over `0 .. positionCount - 1`
performed at the start of `detectPositionBias`. -/
def zeroFill (m : List (ℕ × ℕ)) (positionCount : ℕ) : List (ℕ × ℕ) :=
  (List.range positionCount).foldl
    (fun acc i => if (acc.lookup i).isSome then acc else acc ++ [(i, 0)]) m

/-- Result record of `detectPositionBias`.  The human-readable
`interpretation` string (digit formatting of the fields below) is elided:
it is a function of the fields kept here and no claim mentions it. -/
structure PositionBiasResult where
  positionFrequency : List (ℕ × ℕ)
  deviation : List (ℕ × ℚ)
  maxDeviation : ℚ
  maxDeviationPosition : ℕ
  averageDeviation : ℚ
  biasIndex : ℚ
  hasBias : Bool
  strongestBiasPosition : Option ℕ
  biasDirection : String
deriving DecidableEq, Repr

/-- `detectPositionBias` of `analysis/position-bias.ts`. -/
def detectPositionBias (selections : List SelectionRun) (positionCount : ℕ) :
    PositionBiasResult :=
  let positionFrequency := zeroFill (calculatePositionBias selections) positionCount
  let totalSelections := selections.length
  let expectedFrequency : ℚ := (totalSelections : ℚ) / (positionCount : ℚ)
  let st := (List.range positionCount).foldl
    (biasStep expectedFrequency positionFrequency)
    { deviation := [], totalOfDeviations := 0, maxDeviation := 0, maxDeviationPosition := 0 }
  let averageDeviation : ℚ := st.totalOfDeviations / (positionCount : ℚ)
  let biasIndex : ℚ := min 1 (st.totalOfDeviations / (2 * ((positionCount : ℚ) - 1)))
  let biasThreshold : ℚ := 0.15
  let hasBias : Bool :=
    decide (biasIndex > biasThreshold) || decide (|st.maxDeviation| > biasThreshold)
  let biasDirection : String :=
    if st.maxDeviation > 0 then "preference"
    else if st.maxDeviation < 0 then "avoidance"
    else "none"
  { positionFrequency := positionFrequency,
    deviation := st.deviation,
    maxDeviation := st.maxDeviation,
    maxDeviationPosition := st.maxDeviationPosition,
    averageDeviation := averageDeviation,
    biasIndex := biasIndex,
    hasBias := hasBias,
    strongestBiasPosition := if hasBias then some st.maxDeviationPosition else none,
    biasDirection := biasDirection }

/-- Result record of `detectEdgePositionBias` (interpretation text elided,
as for `PositionBiasResult`). -/
structure EdgeBiasResult where
  firstPositionFrequency : ℕ
  lastPositionFrequency : ℕ
  firstPositionBias : ℚ
  lastPositionBias : ℚ
  hasEdgeBias : Bool
deriving DecidableEq, Repr

/-- `detectEdgePositionBias` of `analysis/position-bias.ts`. -/
def detectEdgePositionBias (selections : List SelectionRun) (positionCount : ℕ) :
    EdgeBiasResult :=
  let positionFrequency := calculatePositionBias selections
  let totalSelections := selections.length
  let expectedFrequency : ℚ := (totalSelections : ℚ) / (positionCount : ℚ)
  let firstPosition : ℕ := 0
  let lastPosition : ℕ := positionCount - 1
  let firstPositionFrequency := (positionFrequency.lookup firstPosition).getD 0
  let lastPositionFrequency := (positionFrequency.lookup lastPosition).getD 0
  let firstPositionBias : ℚ :=
    ((firstPositionFrequency : ℚ) - expectedFrequency) / expectedFrequency
  let lastPositionBias : ℚ :=
    ((lastPositionFrequency : ℚ) - expectedFrequency) / expectedFrequency
  let biasThreshold : ℚ := 0.15
  { firstPositionFrequency := firstPositionFrequency,
    lastPositionFrequency := lastPositionFrequency,
    firstPositionBias := firstPositionBias,
    lastPositionBias := lastPositionBias,
    hasEdgeBias :=
      decide (|firstPositionBias| > biasThreshold) ||
      decide (|lastPositionBias| > biasThreshold) }

/-- An entry of the `significantCorrelations` output list. -/
structure CorrelationEntry where
  word : String
  position : ℕ
  frequency : ℕ
  expected : ℚ
  deviation : ℚ
deriving DecidableEq, Repr

/-- Result record of `detectWordPositionCorrelation` (interpretation text
elided, as for `PositionBiasResult`). -/
structure CorrelationResult where
  correlationMatrix : List (String × List (ℕ × ℕ))
  significantCorrelations : List CorrelationEntry
  hasSignificantCorrelation : Bool
deriving DecidableEq, Repr

/-- `detectWordPositionCorrelation` of `analysis/position-bias.ts`.  The
imperative matrix fill (initialise every cell of `words × positions` to `0`,
then increment per selection) is embedded by its postcondition: the cell of
`(word, position)` holds the number of selections with that word and that
position.  The nested `for word / for position` push loop is the
`flatMap`/`filterMap`, and `Array.prototype.sort` with comparator
`Math.abs(b.deviation) - Math.abs(a.deviation)` is embedded as a stable
merge sort with the corresponding "comes before" relation. -/
def detectWordPositionCorrelation (selections : List SelectionRun) :
    CorrelationResult :=
  let words := jsUnique (selections.map (fun s => s.word))
  let positions := jsUnique (selections.map (fun s => s.position))
  let correlationMatrix : List (String × List (ℕ × ℕ)) :=
    words.map (fun word => (word, positions.map (fun position =>
      (position, (selections.filter
        (fun s => s.word == word && s.position == position)).length))))
  let wordFrequencies : List (String × ℕ) :=
    words.map (fun word => (word, (selections.filter (fun s => s.word == word)).length))
  let positionFrequencies : List (ℕ × ℕ) :=
    positions.map (fun position =>
      (position, (selections.filter (fun s => s.position == position)).length))
  let totalSelections := selections.length
  let significant : List CorrelationEntry :=
    words.flatMap (fun word => positions.filterMap (fun position =>
      let frequency : ℕ :=
        (((correlationMatrix.lookup word).getD []).lookup position).getD 0
      let expected : ℚ :=
        (((wordFrequencies.lookup word).getD 0 : ℕ) : ℚ) *
          ((((positionFrequencies.lookup position).getD 0 : ℕ) : ℚ)) /
          (totalSelections : ℚ)
      let deviation : ℚ := ((frequency : ℚ) - expected) / expected
      if |deviation| > 0.3 then
        some { word := word, position := position, frequency := frequency,
               expected := expected, deviation := deviation }
      else none))
  let significantCorrelations :=
    significant.mergeSort (fun a b => decide (|b.deviation| ≤ |a.deviation|))
  { correlationMatrix := correlationMatrix,
    significantCorrelations := significantCorrelations,
    hasSignificantCorrelation := decide (significantCorrelations.length > 0) }

/-- The `overallAssessment` object of `analyzeRandomness`.  The two flags
are conjunctions of real comparisons, hence `Prop` fields. -/
structure OverallAssessment where
  isUniformDistribution : Prop
  isSequentiallyIndependent : Prop
  interpretation : String

/-- Return record of `analyzeRandomness`; the nested object literal of the
source is flattened into one structure, field names preserved. -/
structure RandomnessAnalysis where
  wordFrequency : List (String × ℕ)
  positionFrequency : List (ℕ × ℕ)
  entropyWords : EntropyResult
  entropyPositions : EntropyResult
  distributionWords : DispersionResult
  distributionPositions : DispersionResult
  chiSquareWords : ChiSquareResult
  chiSquarePositions : ChiSquareResult
  sequentialIndependenceWords : RunsTestResult
  sequentialIndependencePositions : RunsTestResult
  overallAssessment : OverallAssessment

open Classical in
/-- `analyzeRandomness` of the statistical-analysis module: the composite
assessor running every component over both attributes. -/
noncomputable def analyzeRandomness (result : EvaluationResult) : RandomnessAnalysis :=
  let totalRuns := result.totalRuns
  let wordFrequency := result.selectedWords
  let positionFrequency := result.positionBias
  let wordEntropy := calculateEntropy wordFrequency totalRuns
  let positionEntropy := calculateEntropy positionFrequency totalRuns
  let wordDistribution := calculateStandardDeviation wordFrequency totalRuns
  let positionDistribution := calculateStandardDeviation positionFrequency totalRuns
  let wordChiSquare := calculateChiSquare wordFrequency totalRuns none
  let positionChiSquare := calculateChiSquare positionFrequency totalRuns none
  let wordRunsTest := runsTest result.rawSelections Attr.word
  let positionRunsTest := runsTest result.rawSelections Attr.position
  let isUniformDistribution : Prop :=
    wordEntropy.normalizedEntropy.gtReal 0.95 ∧
    positionEntropy.normalizedEntropy.gtReal 0.95
  let isSequentiallyIndependent : Prop :=
    wordRunsTest.isRandom ∧ positionRunsTest.isRandom
  let interpretation : String :=
    if isUniformDistribution ∧ isSequentiallyIndependent then
      "Distribution appears highly random and unbiased"
    else if isUniformDistribution ∧ ¬ isSequentiallyIndependent then
      "Distribution is uniform but shows sequential patterns"
    else if ¬ isUniformDistribution ∧ isSequentiallyIndependent then
      "Distribution shows some bias but selections are sequentially independent"
    else
      "Distribution is biased and shows sequential patterns"
  { wordFrequency := wordFrequency,
    positionFrequency := positionFrequency,
    entropyWords := wordEntropy,
    entropyPositions := positionEntropy,
    distributionWords := wordDistribution,
    distributionPositions := positionDistribution,
    chiSquareWords := wordChiSquare,
    chiSquarePositions := positionChiSquare,
    sequentialIndependenceWords := wordRunsTest,
    sequentialIndependencePositions := positionRunsTest,
    overallAssessment :=
      { isUniformDistribution := isUniformDistribution,
        isSequentiallyIndependent := isSequentiallyIndependent,
        interpretation := interpretation } }

/-- Deviation of position `i` from the expected uniform frequency, as
computed by the loop of `detectPositionBias`; used to state the claims about
that loop. -/
def positionDeviation (selections : List SelectionRun) (positionCount : ℕ)
    (i : ℕ) : ℚ :=
  let expectedFrequency : ℚ := (selections.length : ℚ) / (positionCount : ℚ)
  ((((zeroFill (calculatePositionBias selections) positionCount).lookup i).getD 0 : ℚ) -
    expectedFrequency) / expectedFrequency

/-- Number of selections with the given word and position (the value of the
contingency-matrix cell). -/
def cellCount (selections : List SelectionRun) (word : String) (position : ℕ) : ℕ :=
  (selections.filter (fun s => s.word == word && s.position == position)).length

/-- Expected cell count under independence,
`(wordTotal * positionTotal) / grandTotal`. -/
def cellExpected (selections : List SelectionRun) (word : String) (position : ℕ) : ℚ :=
  (((selections.filter (fun s => s.word == word)).length : ℚ) *
    ((selections.filter (fun s => s.position == position)).length : ℚ)) /
    (selections.length : ℚ)

/-- Relative deviation of a contingency cell from independence. -/
def cellDeviation (selections : List SelectionRun) (word : String) (position : ℕ) : ℚ :=
  ((cellCount selections word position : ℚ) - cellExpected selections word position) /
    cellExpected selections word position

/-- The entry pushed onto `significantCorrelations` for a significant cell. -/
def cellEntry (selections : List SelectionRun) (word : String) (position : ℕ) :
    CorrelationEntry :=
  { word := word, position := position,
    frequency := cellCount selections word position,
    expected := cellExpected selections word position,
    deviation := cellDeviation selections word position }

/-- Projection of a selection to the pair of fields the analysis engine
reads; two histories with the same projection are indistinguishable to it. -/
def wordPos (s : SelectionRun) : String × ℕ := (s.word, s.position)

/-- The expected probability of a category in the chi-square test:
the provided probability when a map is given, `1/k` (uniform over the `k`
observed categories) otherwise. -/
def chiSquareProb [DecidableEq κ] (observed : List (κ × ℕ))
    (expectedProbability : Option (List (κ × ℚ))) (c : κ) : ℚ :=
  match expectedProbability with
  | none => 1 / (observed.length : ℚ)
  | some m => (m.lookup c).getD 0

/-- The expected count of a category in the chi-square test,
`expected_i = total · p_i`. -/
def chiSquareExpected [DecidableEq κ] (observed : List (κ × ℕ))
    (totalObservations : ℕ) (expectedProbability : Option (List (κ × ℚ)))
    (c : κ) : ℚ :=
  (totalObservations : ℚ) * chiSquareProb observed expectedProbability c

/-- The interpretation bands of the goodness-of-fit tester as the spec
states them: `statistic < df` → random; `df ≤ statistic < 2·df` → mild;
`2·df ≤ statistic < 3·df` → moderate; otherwise strong. -/
def chiSquareBand (statistic : ℚ) (df : ℤ) : String :=
  if statistic < (df : ℚ) then "Distribution appears random (chi-square < df)"
  else if statistic < 2 * (df : ℚ) then "Distribution shows mild deviation from randomness"
  else if statistic < 3 * (df : ℚ) then "Distribution shows moderate deviation from randomness"
  else "Distribution shows strong deviation from randomness"

/-- A list of records with the given words (position and presentation order
irrelevant to the word-attribute runs test). -/
def wordsToRuns (ws : List String) : List SelectionRun :=
  ws.map (fun w => { word := w, position := 0, originalOrder := [] })

/-- 100 records with position counts 35/25/20/20 over positions 0–3 (the
position-bias example of the spec). -/
def sample100 : List SelectionRun :=
  List.replicate 35 { word := "w", position := 0, originalOrder := [] } ++
  List.replicate 25 { word := "w", position := 1, originalOrder := [] } ++
  List.replicate 20 { word := "w", position := 2, originalOrder := [] } ++
  List.replicate 20 { word := "w", position := 3, originalOrder := [] }

/-- The alternating 20-record sequence `A,B,A,B,…` (10 of each). -/
def altRecords : List SelectionRun :=
  wordsToRuns ["A", "B", "A", "B", "A", "B", "A", "B", "A", "B",
               "A", "B", "A", "B", "A", "B", "A", "B", "A", "B"]

/-- The clustered sequence of 10 `A`s followed by 10 `B`s. -/
def clusteredRecords : List SelectionRun :=
  wordsToRuns ["A", "A", "A", "A", "A", "A", "A", "A", "A", "A",
               "B", "B", "B", "B", "B", "B", "B", "B", "B", "B"]

/-- A 20-record two-valued sequence with exactly 16 runs (10 of each value):
its z-score lies strictly between 1.96 and 2.5. -/
def sixteenRunRecords : List SelectionRun :=
  wordsToRuns ["A", "A", "B", "B", "A", "A", "B", "B", "A", "B",
               "A", "B", "A", "B", "A", "B", "A", "B", "A", "B"]

/-- Ten identical records: enough data for the runs test but only one
distinct value. -/
def identicalRecords : List SelectionRun :=
  wordsToRuns ["A", "A", "A", "A", "A", "A", "A", "A", "A", "A"]

/-- Two records over distinct words and positions (one significant
correlation cell per word/position pair). -/
def twoRecords : List SelectionRun :=
  [{ word := "A", position := 0, originalOrder := [] },
   { word := "B", position := 1, originalOrder := [] }]

/-- A pair of histories that agree on words and positions and differ only in
the presentation order recorded with each trial. -/
def orderedHistoryA : List SelectionRun :=
  [{ word := "A", position := 0, originalOrder := ["A", "B"] },
   { word := "B", position := 1, originalOrder := ["A", "B"] }]

/-- See `orderedHistoryA`; same words and positions, different
`originalOrder` contents. -/
def orderedHistoryB : List SelectionRun :=
  [{ word := "A", position := 0, originalOrder := ["B", "A"] },
   { word := "B", position := 1, originalOrder := [] }]

/-! ## Helper lemmas -/

theorem sum_bump [DecidableEq κ] (m : List (κ × ℕ)) (k : κ) :
    ((bump m k).map Prod.snd).sum = (m.map Prod.snd).sum + 1 := by
  induction m with
  | nil => simp [bump]
  | cons p t ih =>
    by_cases h : p.1 = k
    · simp [bump, h]
      omega
    · simp [bump, h, ih]
      omega

theorem sum_foldl_bump [DecidableEq κ] (f : SelectionRun → κ) :
    ∀ (l : List SelectionRun) (m : List (κ × ℕ)),
      ((l.foldl (fun acc s => bump acc (f s)) m).map Prod.snd).sum =
        (m.map Prod.snd).sum + l.length := by
  intro l
  induction l with
  | nil => intro m; simp
  | cons s t ih =>
    intro m
    simp only [List.foldl_cons, ih, sum_bump, List.length_cons]
    omega

/-! ## C7: conservation law of the frequency aggregators -/

/-- C7: for every record sequence (including the empty one), the counts of
`calculateWordFrequency` sum to the number of records, and the counts of
`calculatePositionBias` sum to the number of records. -/
theorem frequency_conservation (selections : List SelectionRun) :
    ((calculateWordFrequency selections).map Prod.snd).sum = selections.length ∧
    ((calculatePositionBias selections).map Prod.snd).sum = selections.length := by
  constructor
  · simpa using sum_foldl_bump (fun s => s.word) selections []
  · simpa using sum_foldl_bump (fun s => s.position) selections []

/-! ## C1: the entropy analyzer on a single-category distribution -/

/-- C1: on the single-category distribution with five observations the
entropy analyzer returns the bare pair with entropy `0` and normalized
entropy `NaN` (the division `0 / log2(1) = 0 / 0`); there is no
insufficient-data marker in the result. -/
theorem calculateEntropy_single_category_nan :
    calculateEntropy [("A", 5)] 5 =
      { entropy := 0, normalizedEntropy := JsNum.nan } := by
  unfold calculateEntropy
  norm_num [List.lookup, jsDiv, Real.logb_one]

/-! ## C8: the dispersion analyzer on a zero-mean distribution -/

/-- C8: on the all-zero two-category distribution (total `0`, hence
`mean = 0`) the dispersion analyzer returns mean `0`, standard deviation `0`
and coefficient of variation `NaN` (`0 / 0`); there is no insufficient-data
marker in the result. -/
theorem calculateStandardDeviation_zero_mean_nan :
    calculateStandardDeviation [("A", 0), ("B", 0)] 0 =
      { mean := 0, stdDev := 0, coefficientOfVariation := JsNum.nan } := by
  unfold calculateStandardDeviation
  norm_num [jsDiv, Real.sqrt_zero]

theorem biasFold_total (E : ℚ) (m : List (ℕ × ℕ)) :
    ∀ (l : List ℕ) (st : BiasLoopState),
      (l.foldl (biasStep E m) st).totalOfDeviations =
        st.totalOfDeviations +
          (l.map (fun i => |(((m.lookup i).getD 0 : ℚ) - E) / E|)).sum := by
  intro l
  induction l with
  | nil => intro st; simp
  | cons i t ih =>
    intro st
    simp only [List.foldl_cons, List.map_cons, List.sum_cons, ih]
    simp only [biasStep]
    ring

theorem biasFold_maxAbs (E : ℚ) (m : List (ℕ × ℕ)) :
    ∀ (l : List ℕ) (st : BiasLoopState),
      |(l.foldl (biasStep E m) st).maxDeviation| =
        (l.map (fun i => |(((m.lookup i).getD 0 : ℚ) - E) / E|)).foldl max
          |st.maxDeviation| := by
  intro l
  induction l with
  | nil => intro st; simp
  | cons i t ih =>
    intro st
    simp only [List.foldl_cons, List.map_cons, ih]
    congr 1
    simp only [biasStep]
    by_cases h : |(((m.lookup i).getD 0 : ℚ) - E) / E| > |st.maxDeviation|
    · simp only [h, if_pos]
      exact (max_eq_right h.le).symm
    · simp only [h, if_neg, not_false_iff]
      exact (max_eq_left (not_lt.mp h)).symm

theorem foldl_max_lt_iff :
    ∀ (l : List ℚ) (a c : ℚ), c < l.foldl max a ↔ c < a ∨ ∃ x ∈ l, c < x := by
  intro l
  induction l with
  | nil => intro a c; simp
  | cons x t ih =>
    intro a c
    rw [List.foldl_cons, ih]
    simp only [lt_max_iff, List.mem_cons]
    constructor
    · rintro (⟨h | h⟩ | ⟨y, hy, h⟩)
      · exact Or.inl h
      · exact Or.inr ⟨x, Or.inl rfl, h⟩
      · exact Or.inr ⟨y, Or.inr hy, h⟩
    · rintro (h | ⟨y, hy | hy, h⟩)
      · exact Or.inl (Or.inl h)
      · exact Or.inl (Or.inr (hy ▸ h))
      · exact Or.inr ⟨y, hy, h⟩

/-! ## C4: the position-bias detector -/

/-- C4: for every non-empty record sequence and `positionCount ≥ 2`,
`detectPositionBias` returns `biasIndex = min(1, Σ|deviation_i| /
(2·(positionCount − 1)))`, a value in `[0, 1]`, and `hasBias` exactly when
`biasIndex > 0.15` or some position deviates by more than `0.15` in
magnitude; on the 35/25/20/20 input over 100 records with 4 positions it
returns `maxDeviationPosition = 0`, `maxDeviation = 0.4`, `hasBias`, and
direction `preference`. -/
theorem detectPositionBias_spec (selections : List SelectionRun)
    (positionCount : ℕ) (hne : selections ≠ []) (hpc : 2 ≤ positionCount) :
    (detectPositionBias selections positionCount).biasIndex =
      min 1 (((List.range positionCount).map
        (fun i => |positionDeviation selections positionCount i|)).sum /
        (2 * ((positionCount : ℚ) - 1))) ∧
    0 ≤ (detectPositionBias selections positionCount).biasIndex ∧
    (detectPositionBias selections positionCount).biasIndex ≤ 1 ∧
    ((detectPositionBias selections positionCount).hasBias = true ↔
      0.15 < (detectPositionBias selections positionCount).biasIndex ∨
      ∃ i ∈ List.range positionCount,
        0.15 < |positionDeviation selections positionCount i|) ∧
    ((detectPositionBias sample100 4).maxDeviationPosition = 0 ∧
     (detectPositionBias sample100 4).maxDeviation = 2 / 5 ∧
     (detectPositionBias sample100 4).hasBias = true ∧
     (detectPositionBias sample100 4).biasDirection = "preference") := by
  have hsum :
      (detectPositionBias selections positionCount).biasIndex =
        min 1 (((List.range positionCount).map
          (fun i => |positionDeviation selections positionCount i|)).sum /
          (2 * ((positionCount : ℚ) - 1))) := by
    simp only [detectPositionBias, biasFold_total, positionDeviation, zero_add]
  have hsumNonneg :
      0 ≤ ((List.range positionCount).map
        (fun i => |positionDeviation selections positionCount i|)).sum :=
    List.sum_nonneg (by
      intro x hx
      obtain ⟨i, _, rfl⟩ := List.mem_map.mp hx
      exact abs_nonneg _)
  have hden : (0 : ℚ) < 2 * ((positionCount : ℚ) - 1) := by
    have : (2 : ℚ) ≤ (positionCount : ℚ) := by exact_mod_cast hpc
    linarith
  refine ⟨hsum, ?_, ?_, ?_, ?_⟩
  · rw [hsum]
    exact le_min one_pos.le (div_nonneg hsumNonneg hden.le)
  · rw [hsum]
    exact min_le_left _ _
  · simp only [detectPositionBias, Bool.or_eq_true, decide_eq_true_eq]
    constructor
    · rintro (h | h)
      · exact Or.inl h
      · refine Or.inr ?_
        rw [biasFold_maxAbs, abs_zero] at h
        rcases (foldl_max_lt_iff _ _ _).mp h with h' | ⟨x, hx, h'⟩
        · norm_num at h'
        · obtain ⟨i, hi, rfl⟩ := List.mem_map.mp hx
          exact ⟨i, hi, by simpa [positionDeviation] using h'⟩
    · rintro (h | ⟨i, hi, h⟩)
      · exact Or.inl h
      · refine Or.inr ?_
        rw [biasFold_maxAbs, abs_zero]
        refine (foldl_max_lt_iff _ _ _).mpr (Or.inr ?_)
        refine ⟨|positionDeviation selections positionCount i|, ?_, h⟩
        exact List.mem_map.mpr ⟨i, hi, by simp [positionDeviation]⟩
  · have hfreq : zeroFill (calculatePositionBias sample100) 4 =
        [(0, 35), (1, 25), (2, 20), (3, 20)] := by decide
    have hlen : sample100.length = 100 := by decide
    have hrange : List.range 4 = [0, 1, 2, 3] := by decide
    have l0 : List.lookup 0 [((0 : ℕ), (35 : ℕ)), (1, 25), (2, 20), (3, 20)] =
        some 35 := by decide
    have l1 : List.lookup 1 [((0 : ℕ), (35 : ℕ)), (1, 25), (2, 20), (3, 20)] =
        some 25 := by decide
    have l2 : List.lookup 2 [((0 : ℕ), (35 : ℕ)), (1, 25), (2, 20), (3, 20)] =
        some 20 := by decide
    have l3 : List.lookup 3 [((0 : ℕ), (35 : ℕ)), (1, 25), (2, 20), (3, 20)] =
        some 20 := by decide
    simp only [detectPositionBias, hfreq, hlen, hrange]
    norm_num [biasStep, l0, l1, l2, l3, abs_neg, abs_of_nonneg, abs_of_nonpos]

/-- Witness for `detectPositionBias_spec`: instantiated at the 35/25/20/20
sample over 100 records with 4 positions. -/
theorem detectPositionBias_spec_witness :
    (detectPositionBias sample100 4).maxDeviationPosition = 0 ∧
    (detectPositionBias sample100 4).maxDeviation = 2 / 5 ∧
    (detectPositionBias sample100 4).hasBias = true ∧
    (detectPositionBias sample100 4).biasDirection = "preference" :=
  (detectPositionBias_spec sample100 4 (by decide) (by decide)).2.2.2.2

theorem foldl_add_eq_sum (f : α → ℚ) :
    ∀ (l : List α) (a : ℚ), l.foldl (fun acc x => acc + f x) a = a + (l.map f).sum := by
  intro l
  induction l with
  | nil => intro a; simp
  | cons x t ih =>
    intro a
    simp only [List.foldl_cons, List.map_cons, List.sum_cons, ih]
    ring

theorem lookup_of_mem [DecidableEq κ] :
    ∀ {m : List (κ × β)}, (m.map Prod.fst).Nodup → ∀ {pr : κ × β}, pr ∈ m →
      m.lookup pr.1 = some pr.2 := by
  intro m
  induction m with
  | nil => intro _ pr h; cases h
  | cons q t ih =>
    intro hnd pr hm
    simp only [List.map_cons, List.nodup_cons] at hnd
    rcases List.mem_cons.mp hm with rfl | hm'
    · simp [List.lookup]
    · have hne : ¬ (pr.1 == q.1) = true := by
        simp only [beq_iff_eq]
        intro hEq
        exact hnd.1 (hEq ▸ List.mem_map.mpr ⟨pr, hm', rfl⟩)
      simp only [List.lookup, hne]
      exact ih hnd.2 hm'

theorem lookup_map_self [DecidableEq κ] (l : List κ) (f : κ → β) (hnd : l.Nodup)
    {c : κ} (hc : c ∈ l) : ((l.map (fun x => (x, f x))).lookup c) = some (f c) := by
  have hft : (l.map (fun x => (x, f x))).map Prod.fst = l := by
    simp [List.map_map, Function.comp_def]
  have h := lookup_of_mem (m := l.map (fun x => (x, f x)))
    (by rw [hft]; exact hnd)
    (List.mem_map.mpr ⟨c, hc, (rfl : (c, f c) = (c, f c))⟩)
  simpa using h


theorem chiSquareProb_lookup [DecidableEq κ] (observed : List (κ × ℕ))
    (probs : Option (List (κ × ℚ))) (hnd : (observed.map Prod.fst).Nodup)
    {pr : κ × ℕ} (hpr : pr ∈ observed) :
    ((match probs with
      | some m => m
      | none => (observed.map Prod.fst).map
          (fun cat => (cat, 1 / ((observed.map Prod.fst).length : ℚ)))).lookup pr.1).getD 0
      = chiSquareProb observed probs pr.1 := by
  cases probs with
  | some m => rfl
  | none =>
    have hmem : pr.1 ∈ observed.map Prod.fst := List.mem_map.mpr ⟨pr, hpr, rfl⟩
    rw [lookup_map_self _ _ hnd hmem]
    simp [chiSquareProb]

theorem chiSquareProb_ne_zero [DecidableEq κ] (observed : List (κ × ℕ))
    (probs : Option (List (κ × ℚ))) (hk : 2 ≤ observed.length)
    (hvalid : ∀ m, probs = some m → ∀ pr ∈ observed, 0 < (m.lookup pr.1).getD 0)
    {pr : κ × ℕ} (hpr : pr ∈ observed) :
    chiSquareProb observed probs pr.1 ≠ 0 := by
  cases probs with
  | some m => exact (hvalid m rfl pr hpr).ne'
  | none =>
    have : ((observed.length : ℚ)) ≠ 0 := by
      have h0 : (0 : ℚ) < (observed.length : ℚ) := by
        exact_mod_cast Nat.lt_of_lt_of_le Nat.zero_lt_two hk
      exact h0.ne'
    simp [chiSquareProb, this]

/-! ## C3: the goodness-of-fit tester -/

/-- C3: for every observed distribution over `k ≥ 2` distinct categories and
positive total (with, when an expected-probability map is supplied, a
positive probability for every observed category), `calculateChiSquare`
returns the statistic `Σ (observed_i − expected_i)² / expected_i` with
`expected_i = total · p_i` (`p_i` uniform `1/k` when no map is given),
`degreesOfFreedom = k − 1`, and the interpretation given by the heuristic
bands; in particular when every observed count equals its expected count the
statistic is `0` and the interpretation is the "random" band. -/
theorem calculateChiSquare_spec [DecidableEq κ] (observed : List (κ × ℕ))
    (totalObservations : ℕ) (expectedProbability : Option (List (κ × ℚ)))
    (hk : 2 ≤ observed.length)
    (hnd : (observed.map Prod.fst).Nodup)
    (htot : 0 < totalObservations)
    (hvalid : ∀ m, expectedProbability = some m →
      ∀ pr ∈ observed, 0 < (m.lookup pr.1).getD 0) :
    calculateChiSquare observed totalObservations expectedProbability =
      { chiSquare := (observed.map (fun pr =>
          ((pr.2 : ℚ) -
            chiSquareExpected observed totalObservations expectedProbability pr.1) ^ 2 /
            chiSquareExpected observed totalObservations expectedProbability pr.1)).sum,
        degreesOfFreedom := (observed.length : ℤ) - 1,
        interpretation := chiSquareBand
          ((observed.map (fun pr =>
            ((pr.2 : ℚ) -
              chiSquareExpected observed totalObservations expectedProbability pr.1) ^ 2 /
              chiSquareExpected observed totalObservations expectedProbability pr.1)).sum)
          ((observed.length : ℤ) - 1) } ∧
    ((∀ pr ∈ observed, (pr.2 : ℚ) =
        chiSquareExpected observed totalObservations expectedProbability pr.1) →
      (calculateChiSquare observed totalObservations expectedProbability).chiSquare = 0 ∧
      (calculateChiSquare observed totalObservations expectedProbability).interpretation =
        "Distribution appears random (chi-square < df)") := by
  have hcongr : ∀ pr ∈ observed,
      ((((observed.lookup pr.1).getD 0 : ℕ) : ℚ) -
        (totalObservations : ℚ) *
          (if ((match expectedProbability with
                | some m => m
                | none => (observed.map Prod.fst).map
                    (fun cat => (cat, 1 / ((observed.map Prod.fst).length : ℚ)))).lookup
                  pr.1).getD 0 = 0 then
              1 / ((observed.map Prod.fst).length : ℚ)
            else ((match expectedProbability with
                | some m => m
                | none => (observed.map Prod.fst).map
                    (fun cat => (cat, 1 / ((observed.map Prod.fst).length : ℚ)))).lookup
                  pr.1).getD 0)) ^ 2 /
        ((totalObservations : ℚ) *
          (if ((match expectedProbability with
                | some m => m
                | none => (observed.map Prod.fst).map
                    (fun cat => (cat, 1 / ((observed.map Prod.fst).length : ℚ)))).lookup
                  pr.1).getD 0 = 0 then
              1 / ((observed.map Prod.fst).length : ℚ)
            else ((match expectedProbability with
                | some m => m
                | none => (observed.map Prod.fst).map
                    (fun cat => (cat, 1 / ((observed.map Prod.fst).length : ℚ)))).lookup
                  pr.1).getD 0)) =
      ((pr.2 : ℚ) -
        chiSquareExpected observed totalObservations expectedProbability pr.1) ^ 2 /
        chiSquareExpected observed totalObservations expectedProbability pr.1 := by
    intro pr hpr
    rw [chiSquareProb_lookup observed expectedProbability hnd hpr]
    rw [if_neg (chiSquareProb_ne_zero observed expectedProbability hk hvalid hpr)]
    rw [lookup_of_mem hnd hpr]
    simp [chiSquareExpected]
  have hchiEq :
      (calculateChiSquare observed totalObservations expectedProbability).chiSquare =
        (observed.map (fun pr =>
          ((pr.2 : ℚ) -
            chiSquareExpected observed totalObservations expectedProbability pr.1) ^ 2 /
            chiSquareExpected observed totalObservations expectedProbability pr.1)).sum := by
    simp only [calculateChiSquare]
    rw [foldl_add_eq_sum, zero_add, List.map_map]
    exact List.map_congr_left (fun pr hpr => hcongr pr hpr) ▸ rfl
  have hdf :
      (calculateChiSquare observed totalObservations expectedProbability).degreesOfFreedom =
        (observed.length : ℤ) - 1 := by
    simp [calculateChiSquare]
  have hint :
      (calculateChiSquare observed totalObservations expectedProbability).interpretation =
        chiSquareBand
          ((calculateChiSquare observed totalObservations expectedProbability).chiSquare)
          ((calculateChiSquare observed totalObservations expectedProbability).degreesOfFreedom) := by
    simp only [calculateChiSquare, chiSquareBand]
  have hmain :
      calculateChiSquare observed totalObservations expectedProbability =
        { chiSquare := (observed.map (fun pr =>
            ((pr.2 : ℚ) -
              chiSquareExpected observed totalObservations expectedProbability pr.1) ^ 2 /
              chiSquareExpected observed totalObservations expectedProbability pr.1)).sum,
          degreesOfFreedom := (observed.length : ℤ) - 1,
          interpretation := chiSquareBand
            ((observed.map (fun pr =>
              ((pr.2 : ℚ) -
                chiSquareExpected observed totalObservations expectedProbability pr.1) ^ 2 /
                chiSquareExpected observed totalObservations expectedProbability pr.1)).sum)
            ((observed.length : ℤ) - 1) } := by
    have heta : calculateChiSquare observed totalObservations expectedProbability =
        ⟨(calculateChiSquare observed totalObservations expectedProbability).chiSquare,
         (calculateChiSquare observed totalObservations expectedProbability).degreesOfFreedom,
         (calculateChiSquare observed totalObservations expectedProbability).interpretation⟩ :=
      rfl
    rw [heta, hint, hchiEq, hdf]
  refine ⟨hmain, ?_⟩
  intro hzero
  have hSzero :
      (observed.map (fun pr =>
        ((pr.2 : ℚ) -
          chiSquareExpected observed totalObservations expectedProbability pr.1) ^ 2 /
          chiSquareExpected observed totalObservations expectedProbability pr.1)).sum = 0 := by
    refine List.sum_eq_zero ?_
    intro x hx
    obtain ⟨pr, hpr, rfl⟩ := List.mem_map.mp hx
    rw [← hzero pr hpr]
    simp
  refine ⟨by rw [hchiEq, hSzero], ?_⟩
  have hdfpos : (0 : ℚ) < (((observed.length : ℤ) - 1 : ℤ) : ℚ) := by
    have h2 : (2 : ℤ) ≤ (observed.length : ℤ) := by exact_mod_cast hk
    have h1 : (0 : ℤ) < (observed.length : ℤ) - 1 := by omega
    exact_mod_cast h1
  rw [congrArg ChiSquareResult.interpretation hmain]
  rw [hSzero]
  rw [chiSquareBand, if_pos hdfpos]

/-- Witness for `calculateChiSquare_spec`: the uniform 25/25/25/25
distribution over 100 observations with the default uniform expectation has
statistic `0` and the "random" interpretation. -/
theorem calculateChiSquare_spec_witness :
    (calculateChiSquare [("A", 25), ("B", 25), ("C", 25), ("D", 25)] 100 none).chiSquare = 0 ∧
    (calculateChiSquare [("A", 25), ("B", 25), ("C", 25), ("D", 25)] 100 none).interpretation =
      "Distribution appears random (chi-square < df)" :=
  (calculateChiSquare_spec [("A", 25), ("B", 25), ("C", 25), ("D", 25)] 100 none
    (by decide) (by decide) (by decide) (fun m hm => by cases hm)).2
    (by
      intro pr hpr
      fin_cases hpr <;> norm_num [chiSquareExpected, chiSquareProb])

theorem jsUnique_nodup [DecidableEq α] : ∀ (l : List α), (jsUnique l).Nodup
  | [] => by simp [jsUnique]
  | a :: l => by
    rw [jsUnique, List.nodup_cons]
    constructor
    · intro hmem
      have := (List.mem_filter.mp hmem).2
      simp at this
    · exact List.Nodup.filter _ (jsUnique_nodup l)

theorem mem_jsUnique [DecidableEq α] : ∀ (l : List α) (x : α), x ∈ jsUnique l ↔ x ∈ l
  | [], x => by simp [jsUnique]
  | a :: l, x => by
    rw [jsUnique, List.mem_cons, List.mem_cons]
    by_cases hx : x = a
    · simp [hx]
    · simp only [hx, false_or]
      rw [List.mem_filter]
      simp [hx, mem_jsUnique l x]

theorem mem_significantCorrelations (selections : List SelectionRun)
    (e : CorrelationEntry) :
    e ∈ (detectWordPositionCorrelation selections).significantCorrelations ↔
      ∃ w ∈ jsUnique (selections.map (fun s => s.word)),
      ∃ p ∈ jsUnique (selections.map (fun s => s.position)),
        0.3 < |cellDeviation selections w p| ∧ e = cellEntry selections w p := by
  simp only [detectWordPositionCorrelation, List.mem_mergeSort, List.mem_flatMap,
    List.mem_filterMap]
  constructor
  · rintro ⟨w, hw, p, hp, heq⟩
    have hmat := lookup_map_self (jsUnique (selections.map (fun s => s.word)))
      (fun word => (jsUnique (selections.map (fun s => s.position))).map
        (fun position => (position,
          (selections.filter (fun s => s.word == word && s.position == position)).length)))
      (jsUnique_nodup _) hw
    have hrow := lookup_map_self (jsUnique (selections.map (fun s => s.position)))
      (fun position =>
        (selections.filter (fun s => s.word == w && s.position == position)).length)
      (jsUnique_nodup _) hp
    have hwf := lookup_map_self (jsUnique (selections.map (fun s => s.word)))
      (fun word => (selections.filter (fun s => s.word == word)).length)
      (jsUnique_nodup _) hw
    have hpf := lookup_map_self (jsUnique (selections.map (fun s => s.position)))
      (fun position => (selections.filter (fun s => s.position == position)).length)
      (jsUnique_nodup _) hp
    simp only [] at hmat hrow hwf hpf
    rw [hmat] at heq
    simp only [Option.getD_some] at heq
    rw [hrow, hwf, hpf] at heq
    simp only [Option.getD_some] at heq
    split_ifs at heq with hcond
    refine ⟨w, hw, p, hp, ?_, ?_⟩
    · simpa [cellDeviation, cellExpected, cellCount] using hcond
    · obtain rfl := (Option.some.injEq _ _).mp heq |>.symm
      simp [cellEntry, cellDeviation, cellExpected, cellCount]
  · rintro ⟨w, hw, p, hp, hdev, rfl⟩
    refine ⟨w, hw, p, hp, ?_⟩
    have hmat := lookup_map_self (jsUnique (selections.map (fun s => s.word)))
      (fun word => (jsUnique (selections.map (fun s => s.position))).map
        (fun position => (position,
          (selections.filter (fun s => s.word == word && s.position == position)).length)))
      (jsUnique_nodup _) hw
    have hrow := lookup_map_self (jsUnique (selections.map (fun s => s.position)))
      (fun position =>
        (selections.filter (fun s => s.word == w && s.position == position)).length)
      (jsUnique_nodup _) hp
    have hwf := lookup_map_self (jsUnique (selections.map (fun s => s.word)))
      (fun word => (selections.filter (fun s => s.word == word)).length)
      (jsUnique_nodup _) hw
    have hpf := lookup_map_self (jsUnique (selections.map (fun s => s.position)))
      (fun position => (selections.filter (fun s => s.position == position)).length)
      (jsUnique_nodup _) hp
    simp only [] at hmat hrow hwf hpf
    rw [hmat]
    simp only [Option.getD_some]
    rw [hrow, hwf, hpf]
    simp only [Option.getD_some]
    rw [if_pos (by simpa [cellDeviation, cellExpected, cellCount] using hdev)]
    simp [cellEntry, cellDeviation, cellExpected, cellCount]

/-! ## C6: the category-position correlation detector -/

/-- C6: every entry of `significantCorrelations` deviates from independence
by more than `0.30` in magnitude; conversely every cell of the observed
word × position matrix whose deviation exceeds `0.30` in magnitude appears
in the list; the list is sorted by `|deviation|` in descending order; and
`hasSignificantCorrelation` holds exactly when the list is non-empty. -/
theorem detectWordPositionCorrelation_spec (selections : List SelectionRun) :
    (∀ e ∈ (detectWordPositionCorrelation selections).significantCorrelations,
      0.3 < |e.deviation|) ∧
    (∀ w ∈ jsUnique (selections.map (fun s => s.word)),
     ∀ p ∈ jsUnique (selections.map (fun s => s.position)),
      0.3 < |cellDeviation selections w p| →
        cellEntry selections w p ∈
          (detectWordPositionCorrelation selections).significantCorrelations) ∧
    List.Pairwise (fun a b : CorrelationEntry => |b.deviation| ≤ |a.deviation|)
      (detectWordPositionCorrelation selections).significantCorrelations ∧
    ((detectWordPositionCorrelation selections).hasSignificantCorrelation = true ↔
      (detectWordPositionCorrelation selections).significantCorrelations ≠ []) := by
  refine ⟨?_, ?_, ?_, ?_⟩
  · intro e he
    obtain ⟨w, _, p, _, hdev, rfl⟩ := (mem_significantCorrelations selections e).mp he
    simpa [cellEntry] using hdev
  · intro w hw p hp hdev
    exact (mem_significantCorrelations selections _).mpr ⟨w, hw, p, hp, hdev, rfl⟩
  · simp only [detectWordPositionCorrelation]
    have hsorted := @List.sorted_mergeSort _
      (fun a b : CorrelationEntry => decide (|b.deviation| ≤ |a.deviation|))
      (fun a b c hab hbc => by
        simp only [decide_eq_true_eq] at *
        exact le_trans hbc hab)
      (fun a b => by
        rcases le_total |b.deviation| |a.deviation| with h | h <;> simp [h])
    exact (hsorted _).imp (fun h => by simpa using h)
  · have h : (detectWordPositionCorrelation selections).hasSignificantCorrelation =
        decide (0 < (detectWordPositionCorrelation selections).significantCorrelations.length) :=
      rfl
    rw [h]
    simp [List.length_pos]

/-- Witness for `detectWordPositionCorrelation_spec`: on the two-record
history the cell `("A", 0)` deviates by `+100%` from independence and is
reported as a significant correlation. -/
theorem detectWordPositionCorrelation_spec_witness :
    cellEntry twoRecords "A" 0 ∈
      (detectWordPositionCorrelation twoRecords).significantCorrelations :=
  (detectWordPositionCorrelation_spec twoRecords).2.1 "A" (by decide) 0 (by decide)
    (by
      have hc : cellCount twoRecords "A" 0 = 1 := by decide
      have hw : (twoRecords.filter (fun s => s.word == "A")).length = 1 := by decide
      have hp : (twoRecords.filter (fun s => s.position == 0)).length = 1 := by decide
      have hl : twoRecords.length = 2 := by decide
      norm_num [cellDeviation, cellExpected, hc, hw, hp, hl])

theorem sqrtRatio_pos : 0 < Real.sqrt 90 / Real.sqrt 19 :=
  div_pos (Real.sqrt_pos.mpr (by norm_num)) (Real.sqrt_pos.mpr (by norm_num))

theorem sqrtRatio_lt_225_49 : Real.sqrt 90 / Real.sqrt 19 < 225 / 49 := by
  rw [← Real.sqrt_div (by norm_num : (0:ℝ) ≤ 90)]
  rw [Real.sqrt_lt' (by norm_num)]
  norm_num

theorem sqrtRatio_lt_125_49 : Real.sqrt 90 / Real.sqrt 19 < 125 / 49 := by
  rw [← Real.sqrt_div (by norm_num : (0:ℝ) ≤ 90)]
  rw [Real.sqrt_lt' (by norm_num)]
  norm_num

theorem two_lt_sqrtRatio : 2 < Real.sqrt 90 / Real.sqrt 19 := by
  rw [← Real.sqrt_div (by norm_num : (0:ℝ) ≤ 90)]
  rw [Real.lt_sqrt (by norm_num)]
  norm_num

theorem runsTest_alt_eval : runsTest altRecords Attr.word =
    { numberOfRuns := 20, expectedRuns := 11,
      zScore := 9 / (Real.sqrt 90 / Real.sqrt 19),
      isRandom := |9 / (Real.sqrt 90 / Real.sqrt 19)| < 2.5,
      interpretation :=
        if |9 / (Real.sqrt 90 / Real.sqrt 19)| < 1.96 then
          "Sequence appears random (no significant clustering or alternating patterns)"
        else if 9 / (Real.sqrt 90 / Real.sqrt 19) < -1.96 then
          "Sequence shows clustering (too few runs)"
        else
          "Sequence shows excessive alternating (too many runs)" } := by
  simp only [runsTest]
  rw [if_neg (by decide : ¬ altRecords.length < 10)]
  rw [if_neg (by decide : ¬ (jsUnique (seqOf altRecords Attr.word)).length < 2)]
  simp only [show runsN1 altRecords Attr.word = 10 from by decide,
    show runsN2 altRecords Attr.word = 10 from by decide,
    show observedRuns altRecords Attr.word = 20 from by decide,
    show altRecords.length = 20 from by decide]
  norm_num

theorem runsTest_clustered_eval : runsTest clusteredRecords Attr.word =
    { numberOfRuns := 2, expectedRuns := 11,
      zScore := -(9 / (Real.sqrt 90 / Real.sqrt 19)),
      isRandom := |(-(9 / (Real.sqrt 90 / Real.sqrt 19)))| < 2.5,
      interpretation :=
        if |(-(9 / (Real.sqrt 90 / Real.sqrt 19)))| < 1.96 then
          "Sequence appears random (no significant clustering or alternating patterns)"
        else if -(9 / (Real.sqrt 90 / Real.sqrt 19)) < -1.96 then
          "Sequence shows clustering (too few runs)"
        else
          "Sequence shows excessive alternating (too many runs)" } := by
  simp only [runsTest]
  rw [if_neg (by decide : ¬ clusteredRecords.length < 10)]
  rw [if_neg (by decide : ¬ (jsUnique (seqOf clusteredRecords Attr.word)).length < 2)]
  simp only [show runsN1 clusteredRecords Attr.word = 10 from by decide,
    show runsN2 clusteredRecords Attr.word = 10 from by decide,
    show observedRuns clusteredRecords Attr.word = 2 from by decide,
    show clusteredRecords.length = 20 from by decide]
  norm_num
  have hneg : (-9 : ℝ) / (Real.sqrt 90 / Real.sqrt 19) =
      -(9 / (Real.sqrt 90 / Real.sqrt 19)) := neg_div _ _
  simp only [hneg, abs_neg, neg_lt_neg_iff]
  exact ⟨trivial, trivial, trivial⟩

/-! ## C5: runs test on the alternating and clustered 20-record sequences -/

/-- C5: on the alternating 20-record sequence the runs test observes 20 runs
against 11 expected, its z-score exceeds 1.96 and the interpretation reports
excessive alternating; on the clustered sequence (10 `A`s then 10 `B`s) it
observes 2 runs against 11 expected, its z-score is below −1.96 and the
interpretation reports clustering. -/
theorem runsTest_alt_clustered_spec :
    (runsTest altRecords Attr.word).numberOfRuns = 20 ∧
    (runsTest altRecords Attr.word).expectedRuns = 11 ∧
    1.96 < (runsTest altRecords Attr.word).zScore ∧
    (runsTest altRecords Attr.word).interpretation =
      "Sequence shows excessive alternating (too many runs)" ∧
    (runsTest clusteredRecords Attr.word).numberOfRuns = 2 ∧
    (runsTest clusteredRecords Attr.word).expectedRuns = 11 ∧
    (runsTest clusteredRecords Attr.word).zScore < -1.96 ∧
    (runsTest clusteredRecords Attr.word).interpretation =
      "Sequence shows clustering (too few runs)" := by
  have hzgt : (1.96 : ℝ) < 9 / (Real.sqrt 90 / Real.sqrt 19) := by
    rw [lt_div_iff₀ sqrtRatio_pos]
    have := sqrtRatio_lt_225_49
    linarith
  have hzpos : (0 : ℝ) < 9 / (Real.sqrt 90 / Real.sqrt 19) :=
    div_pos (by norm_num) sqrtRatio_pos
  have habs : |9 / (Real.sqrt 90 / Real.sqrt 19)| = 9 / (Real.sqrt 90 / Real.sqrt 19) :=
    abs_of_pos hzpos
  refine ⟨by rw [runsTest_alt_eval], by rw [runsTest_alt_eval], ?_, ?_, ?_, ?_, ?_, ?_⟩
  · rw [runsTest_alt_eval]
    exact hzgt
  · rw [runsTest_alt_eval]
    rw [if_neg (by rw [habs]; linarith), if_neg (by linarith)]
  · rw [runsTest_clustered_eval]
  · rw [runsTest_clustered_eval]
  · rw [runsTest_clustered_eval]
    simp only
    linarith
  · rw [runsTest_clustered_eval]
    rw [if_neg (by rw [abs_neg, habs]; linarith), if_pos (by linarith)]

theorem runsTest_sixteen_eval : runsTest sixteenRunRecords Attr.word =
    { numberOfRuns := 16, expectedRuns := 11,
      zScore := 5 / (Real.sqrt 90 / Real.sqrt 19),
      isRandom := |5 / (Real.sqrt 90 / Real.sqrt 19)| < 2.5,
      interpretation :=
        if |5 / (Real.sqrt 90 / Real.sqrt 19)| < 1.96 then
          "Sequence appears random (no significant clustering or alternating patterns)"
        else if 5 / (Real.sqrt 90 / Real.sqrt 19) < -1.96 then
          "Sequence shows clustering (too few runs)"
        else
          "Sequence shows excessive alternating (too many runs)" } := by
  simp only [runsTest]
  rw [if_neg (by decide : ¬ sixteenRunRecords.length < 10)]
  rw [if_neg (by decide : ¬ (jsUnique (seqOf sixteenRunRecords Attr.word)).length < 2)]
  simp only [show runsN1 sixteenRunRecords Attr.word = 10 from by decide,
    show runsN2 sixteenRunRecords Attr.word = 10 from by decide,
    show observedRuns sixteenRunRecords Attr.word = 16 from by decide,
    show sixteenRunRecords.length = 20 from by decide]
  norm_num

/-! ## C2: the size-adjusted `isRandom` threshold of the runs test -/

/-- C2 (amended): for record sequences whose tested attribute takes at least
two distinct values, `isRandom` is `|zScore| < 2.5` when `10 ≤ n ≤ 20` and
`|zScore| < 1.96` when `n > 20`, while the interpretation always uses the
1.96 threshold (`|z| < 1.96` → random, `z < −1.96` → clustering,
`z ≥ 1.96` → alternating); on the concrete 20-record two-valued sequence
with 16 runs the z-score satisfies `1.96 ≤ z < 2.5`, so `isRandom` holds
while the interpretation reports excessive alternating. -/
theorem runsTest_threshold_spec :
    (∀ (selections : List SelectionRun) (attr : Attr),
      10 ≤ selections.length → selections.length ≤ 20 →
      2 ≤ (jsUnique (seqOf selections attr)).length →
      ((runsTest selections attr).isRandom ↔
        |(runsTest selections attr).zScore| < 2.5)) ∧
    (∀ (selections : List SelectionRun) (attr : Attr),
      20 < selections.length →
      2 ≤ (jsUnique (seqOf selections attr)).length →
      ((runsTest selections attr).isRandom ↔
        |(runsTest selections attr).zScore| < 1.96)) ∧
    (∀ (selections : List SelectionRun) (attr : Attr),
      10 ≤ selections.length →
      2 ≤ (jsUnique (seqOf selections attr)).length →
      (|(runsTest selections attr).zScore| < 1.96 →
        (runsTest selections attr).interpretation =
          "Sequence appears random (no significant clustering or alternating patterns)") ∧
      ((runsTest selections attr).zScore < -1.96 →
        (runsTest selections attr).interpretation =
          "Sequence shows clustering (too few runs)") ∧
      (1.96 ≤ (runsTest selections attr).zScore →
        (runsTest selections attr).interpretation =
          "Sequence shows excessive alternating (too many runs)")) ∧
    (1.96 ≤ (runsTest sixteenRunRecords Attr.word).zScore ∧
     |(runsTest sixteenRunRecords Attr.word).zScore| < 2.5 ∧
     (runsTest sixteenRunRecords Attr.word).isRandom ∧
     (runsTest sixteenRunRecords Attr.word).interpretation =
       "Sequence shows excessive alternating (too many runs)") := by
  have hz16 : (runsTest sixteenRunRecords Attr.word).zScore =
      5 / (Real.sqrt 90 / Real.sqrt 19) := by rw [runsTest_sixteen_eval]
  have hzpos : (0 : ℝ) < 5 / (Real.sqrt 90 / Real.sqrt 19) :=
    div_pos (by norm_num) sqrtRatio_pos
  have hzlt : 5 / (Real.sqrt 90 / Real.sqrt 19) < 2.5 := by
    rw [div_lt_iff₀ sqrtRatio_pos]
    have := two_lt_sqrtRatio
    linarith
  have hzge : (1.96 : ℝ) ≤ 5 / (Real.sqrt 90 / Real.sqrt 19) := by
    rw [le_div_iff₀ sqrtRatio_pos]
    have := sqrtRatio_lt_125_49
    linarith
  refine ⟨?_, ?_, ?_, ?_⟩
  · intro selections attr h10 h20 h2
    simp only [runsTest]
    rw [if_neg (Nat.not_lt.mpr h10), if_neg (Nat.not_lt.mpr h2), if_pos h20]
  · intro selections attr h20 h2
    simp only [runsTest]
    rw [if_neg (by omega : ¬ selections.length < 10), if_neg (Nat.not_lt.mpr h2),
      if_neg (by omega : ¬ selections.length ≤ 20)]
  · intro selections attr h10 h2
    refine ⟨fun h => ?_, fun h => ?_, fun h => ?_⟩
    all_goals
      revert h
      simp only [runsTest]
      rw [if_neg (Nat.not_lt.mpr h10), if_neg (Nat.not_lt.mpr h2)]
      dsimp only
      intro h
    · rw [if_pos h]
    · rw [if_neg (not_lt.mpr (le_trans (by linarith) (neg_le_abs _))), if_pos h]
    · rw [if_neg (not_lt.mpr (le_trans h (le_abs_self _))), if_neg (by linarith)]
  · refine ⟨by rw [hz16]; exact hzge, ?_, ?_, ?_⟩
    · rw [hz16, abs_of_pos hzpos]
      exact hzlt
    · rw [runsTest_sixteen_eval]
      simp only
      rw [abs_of_pos hzpos]
      exact hzlt
    · rw [runsTest_sixteen_eval]
      simp only
      rw [if_neg (not_lt.mpr (by rw [abs_of_pos hzpos]; exact hzge)),
        if_neg (by linarith)]

/-- Counterexample to C2 as frozen: the ten-record all-identical history has
length in `[10, 20]`, but `isRandom` is false while `|zScore| = 0 < 2.5`, so
`isRandom` is not `(|zScore| < 2.5)` on that input. -/
theorem runsTest_threshold_counterexample :
    10 ≤ identicalRecords.length ∧ identicalRecords.length ≤ 20 ∧
    ¬ ((runsTest identicalRecords Attr.word).isRandom ↔
        |(runsTest identicalRecords Attr.word).zScore| < 2.5) := by
  have hrec : runsTest identicalRecords Attr.word =
      { numberOfRuns := 1, expectedRuns := 1, zScore := 0, isRandom := False,
        interpretation := "All values are identical, no randomness to test" } := by
    simp only [runsTest]
    rw [if_neg (by decide : ¬ identicalRecords.length < 10),
      if_pos (by decide : (jsUnique (seqOf identicalRecords Attr.word)).length < 2)]
  refine ⟨by decide, by decide, ?_⟩
  rw [hrec]
  intro h
  exact h.mpr (by norm_num)

/-- Witness for `runsTest_threshold_spec`: its concrete conjunct at the
16-run 20-record input. -/
theorem runsTest_threshold_spec_witness :
    (runsTest sixteenRunRecords Attr.word).isRandom ∧
    (runsTest sixteenRunRecords Attr.word).interpretation =
      "Sequence shows excessive alternating (too many runs)" :=
  ⟨runsTest_threshold_spec.2.2.2.2.2.1, runsTest_threshold_spec.2.2.2.2.2.2⟩

/-! ## C9: short histories and the composite assessor -/

/-- C9: for fewer than 10 records the runs test returns zero runs, zero
expected runs, zero z-score, `isRandom` false and the insufficient-data
interpretation; consequently the composite assessor's
`isSequentiallyIndependent` is false for every history shorter than 10
records. -/
theorem runsTest_insufficient_spec :
    (∀ (selections : List SelectionRun) (attr : Attr), selections.length < 10 →
      runsTest selections attr =
        { numberOfRuns := 0, expectedRuns := 0, zScore := 0, isRandom := False,
          interpretation :=
            "Insufficient data for runs test (need at least 10 observations)" }) ∧
    (∀ result : EvaluationResult, result.rawSelections.length < 10 →
      ¬ (analyzeRandomness result).overallAssessment.isSequentiallyIndependent) := by
  have hbase : ∀ (selections : List SelectionRun) (attr : Attr),
      selections.length < 10 →
      runsTest selections attr =
        { numberOfRuns := 0, expectedRuns := 0, zScore := 0, isRandom := False,
          interpretation :=
            "Insufficient data for runs test (need at least 10 observations)" } := by
    intro selections attr h
    simp only [runsTest]
    rw [if_pos h]
  refine ⟨hbase, ?_⟩
  intro result h
  have hseq : (analyzeRandomness result).overallAssessment.isSequentiallyIndependent =
      ((runsTest result.rawSelections Attr.word).isRandom ∧
       (runsTest result.rawSelections Attr.position).isRandom) := rfl
  rw [hseq, hbase _ _ h, hbase _ _ h]
  simp

/-- Witness for `runsTest_insufficient_spec`: the empty history. -/
theorem runsTest_insufficient_spec_witness :
    runsTest [] Attr.word =
      { numberOfRuns := 0, expectedRuns := 0, zScore := 0, isRandom := False,
        interpretation :=
          "Insufficient data for runs test (need at least 10 observations)" } ∧
    ¬ (analyzeRandomness
        { selectedWords := [], positionBias := [], totalRuns := 0,
          rawSelections := [] }).overallAssessment.isSequentiallyIndependent :=
  ⟨runsTest_insufficient_spec.1 [] Attr.word (by decide),
   runsTest_insufficient_spec.2
     { selectedWords := [], positionBias := [], totalRuns := 0, rawSelections := [] }
     (by decide)⟩

theorem wordPos_map_word {s1 s2 : List SelectionRun}
    (h : s1.map wordPos = s2.map wordPos) :
    s1.map (fun s => s.word) = s2.map (fun s => s.word) := by
  have h' := congrArg (List.map Prod.fst) h
  simpa [List.map_map, Function.comp_def, wordPos] using h'

theorem wordPos_map_position {s1 s2 : List SelectionRun}
    (h : s1.map wordPos = s2.map wordPos) :
    s1.map (fun s => s.position) = s2.map (fun s => s.position) := by
  have h' := congrArg (List.map Prod.snd) h
  simpa [List.map_map, Function.comp_def, wordPos] using h'

theorem wordPos_map_length {s1 s2 : List SelectionRun}
    (h : s1.map wordPos = s2.map wordPos) : s1.length = s2.length := by
  have h' := congrArg List.length h
  simpa using h'

theorem seqOf_congr {s1 s2 : List SelectionRun}
    (h : s1.map wordPos = s2.map wordPos) (attr : Attr) :
    seqOf s1 attr = seqOf s2 attr := by
  cases attr
  · have e : ∀ s : List SelectionRun,
        seqOf s Attr.word = (s.map wordPos).map (fun q => Sum.inl q.1) := by
      intro s
      rw [List.map_map]
      rfl
    rw [e, e, h]
  · have e : ∀ s : List SelectionRun,
        seqOf s Attr.position = (s.map wordPos).map (fun q => Sum.inr q.2) := by
      intro s
      rw [List.map_map]
      rfl
    rw [e, e, h]

theorem calculatePositionBias_congr {s1 s2 : List SelectionRun}
    (h : s1.map wordPos = s2.map wordPos) :
    calculatePositionBias s1 = calculatePositionBias s2 := by
  have e : ∀ s : List SelectionRun,
      calculatePositionBias s = (s.map wordPos).foldl (fun m q => bump m q.2) [] := by
    intro s
    rw [List.foldl_map]
    rfl
  rw [e, e, h]

theorem runsTest_congr {s1 s2 : List SelectionRun}
    (h : s1.map wordPos = s2.map wordPos) (attr : Attr) :
    runsTest s1 attr = runsTest s2 attr := by
  have hlen := wordPos_map_length h
  have hseq := seqOf_congr h attr
  have hbin : binarySequence s1 attr = binarySequence s2 attr := by
    unfold binarySequence referenceValue
    rw [hseq]
  have hn1 : runsN1 s1 attr = runsN1 s2 attr := by
    unfold runsN1
    rw [hbin]
  have hn2 : runsN2 s1 attr = runsN2 s2 attr := by
    unfold runsN2
    rw [hbin]
  have hruns : observedRuns s1 attr = observedRuns s2 attr := by
    unfold observedRuns
    rw [hbin]
  simp only [runsTest]
  rw [hlen, hseq, hn1, hn2, hruns]

theorem detectPositionBias_congr {s1 s2 : List SelectionRun}
    (h : s1.map wordPos = s2.map wordPos) (positionCount : ℕ) :
    detectPositionBias s1 positionCount = detectPositionBias s2 positionCount := by
  simp only [detectPositionBias]
  rw [calculatePositionBias_congr h, wordPos_map_length h]

theorem detectEdgePositionBias_congr {s1 s2 : List SelectionRun}
    (h : s1.map wordPos = s2.map wordPos) (positionCount : ℕ) :
    detectEdgePositionBias s1 positionCount = detectEdgePositionBias s2 positionCount := by
  simp only [detectEdgePositionBias]
  rw [calculatePositionBias_congr h, wordPos_map_length h]

theorem detectWordPositionCorrelation_congr {s1 s2 : List SelectionRun}
    (h : s1.map wordPos = s2.map wordPos) :
    detectWordPositionCorrelation s1 = detectWordPositionCorrelation s2 := by
  have hw := wordPos_map_word h
  have hp := wordPos_map_position h
  have hlen := wordPos_map_length h
  have hcell : ∀ (w : String) (p : ℕ),
      (s1.filter (fun s => s.word == w && s.position == p)).length =
      (s2.filter (fun s => s.word == w && s.position == p)).length := by
    intro w p
    have e : ∀ s : List SelectionRun,
        (s.filter (fun r => r.word == w && r.position == p)).length =
        ((s.map wordPos).filter (fun q => q.1 == w && q.2 == p)).length := by
      intro s
      rw [← List.countP_eq_length_filter, ← List.countP_eq_length_filter,
        List.countP_map]
      rfl
    rw [e, e, h]
  have hwordLen : ∀ (w : String),
      (s1.filter (fun s => s.word == w)).length =
      (s2.filter (fun s => s.word == w)).length := by
    intro w
    have e : ∀ s : List SelectionRun,
        (s.filter (fun r => r.word == w)).length =
        ((s.map wordPos).filter (fun q => q.1 == w)).length := by
      intro s
      rw [← List.countP_eq_length_filter, ← List.countP_eq_length_filter,
        List.countP_map]
      rfl
    rw [e, e, h]
  have hposLen : ∀ (p : ℕ),
      (s1.filter (fun s => s.position == p)).length =
      (s2.filter (fun s => s.position == p)).length := by
    intro p
    have e : ∀ s : List SelectionRun,
        (s.filter (fun r => r.position == p)).length =
        ((s.map wordPos).filter (fun q => q.2 == p)).length := by
      intro s
      rw [← List.countP_eq_length_filter, ← List.countP_eq_length_filter,
        List.countP_map]
      rfl
    rw [e, e, h]
  simp only [detectWordPositionCorrelation]
  simp only [hw, hp, hlen, hcell, hwordLen, hposLen]

/-! ## C10: the engine never reads the presentation order -/

/-- C10: two histories of equal length whose records agree pairwise on word
and position but may differ arbitrarily in `originalOrder` produce identical
outputs from the runs test, the position-bias detector, the edge-bias
detector and the word-position correlation detector. -/
theorem analysis_ignores_presentation_order (s1 s2 : List SelectionRun)
    (h : List.Forall₂ (fun a b => a.word = b.word ∧ a.position = b.position) s1 s2) :
    (∀ attr : Attr, runsTest s1 attr = runsTest s2 attr) ∧
    (∀ positionCount : ℕ,
      detectPositionBias s1 positionCount = detectPositionBias s2 positionCount) ∧
    (∀ positionCount : ℕ,
      detectEdgePositionBias s1 positionCount = detectEdgePositionBias s2 positionCount) ∧
    detectWordPositionCorrelation s1 = detectWordPositionCorrelation s2 := by
  have hmap : s1.map wordPos = s2.map wordPos := by
    induction h with
    | nil => rfl
    | cons hab _ ih =>
      simp only [List.map_cons, ih, wordPos, hab.1, hab.2]
  exact ⟨runsTest_congr hmap, detectPositionBias_congr hmap,
    detectEdgePositionBias_congr hmap, detectWordPositionCorrelation_congr hmap⟩

/-- Witness for `analysis_ignores_presentation_order`: the two concrete
two-record histories differing only in `originalOrder`. -/
theorem analysis_ignores_presentation_order_witness :
    runsTest orderedHistoryA Attr.word = runsTest orderedHistoryB Attr.word ∧
    detectPositionBias orderedHistoryA 4 = detectPositionBias orderedHistoryB 4 ∧
    detectEdgePositionBias orderedHistoryA 4 = detectEdgePositionBias orderedHistoryB 4 ∧
    detectWordPositionCorrelation orderedHistoryA =
      detectWordPositionCorrelation orderedHistoryB := by
  have h := analysis_ignores_presentation_order orderedHistoryA orderedHistoryB
    (List.Forall₂.cons ⟨rfl, rfl⟩ (List.Forall₂.cons ⟨rfl, rfl⟩ List.Forall₂.nil))
  exact ⟨h.1 Attr.word, h.2.1 4, h.2.2.1 4, h.2.2.2⟩
